import Mathlib

/-!
A verification development for the trabajos-scrape repository.

The repository contains three near-duplicate scraper scripts
(all_scraper.py, import.py, scraper3.py).  This file gives a shallow
embedding of the field-extraction and normalization pipeline of the
job-detail scraper.  Python strings are modelled as Lean strings
(operating on their character lists), parsed JSON-LD metadata as an
inductive Json type, and the BeautifulSoup document queries as an
abstract document record whose fields hold exactly the values the
source code reads from the parsed HTML.  JSON numbers are modelled as
integers; machine floats do not occur in any claim instance.  Python
exceptions are modelled with Option: a step that raises returns none,
and callers propagate or swallow exactly as the try/except structure
of the source does.  Python whitespace and lowercasing are modelled at
ASCII fidelity, which covers every string occurring in the sources and
in the concrete inputs considered here (accented characters such as
the one in "San José" are already lowercase in both the code and the
gazetteer).
-/

/-! ## Python string primitives, on character lists -/

def isPySpace (c : Char) : Bool :=
  c = ' ' || c = '\t' || c = '\n' || c = '\r' || c = '\x0b' || c = '\x0c'

/-- Python str.strip(): drop whitespace from both ends. -/
def stripL (l : List Char) : List Char :=
  ((l.dropWhile isPySpace).reverse.dropWhile isPySpace).reverse

def pyStrip (s : String) : String := String.mk (stripL s.data)

/-- Python str.lower(), at ASCII fidelity. -/
def pyLower (s : String) : String := String.mk (s.data.map Char.toLower)

/-- Python s.replace(". ", ".\r\n") — all_scraper.py line 109 and
scraper3.py line 206. Scans left to right, non-overlapping. -/
def replDotSpace : List Char → List Char
  | [] => []
  | [c] => [c]
  | a :: b :: rest =>
    if a = '.' && b = ' ' then '.' :: '\r' :: '\n' :: replDotSpace rest
    else a :: replDotSpace (b :: rest)

/-- Python s.replace('\r\n', '\n'). -/
def replCRLF : List Char → List Char
  | [] => []
  | [c] => [c]
  | a :: b :: rest =>
    if a = '\r' && b = '\n' then '\n' :: replCRLF rest
    else a :: replCRLF (b :: rest)

/-- Python s.replace('\r', '\n'). -/
def replCR (l : List Char) : List Char :=
  l.map (fun c => if c = '\r' then '\n' else c)

/-- s.replace('\r\n', '\n').replace('\r', '\n') — the newline
canonicalization used for visible descriptions (all_scraper.py
line 219, scraper3.py line 326) and inside import.py line 76. -/
def normNL (l : List Char) : List Char := replCR (replCRLF l)

def normNLS (s : String) : String := String.mk (normNL s.data)

/-- Python re.sub(r'\s+', ' ', s): collapse each whitespace run to one
space. -/
def collapseWsL : List Char → List Char
  | [] => []
  | [c] => if isPySpace c then [' '] else [c]
  | a :: b :: rest =>
    if isPySpace a && isPySpace b then collapseWsL (b :: rest)
    else (if isPySpace a then ' ' else a) :: collapseWsL (b :: rest)

def collapseWsS (s : String) : String := String.mk (collapseWsL s.data)

/-- Python s.split(sep-class): split at every character satisfying p,
never merging adjacent separators (re.split with a single-char class,
and str.split('\n') with p matching only '\n'). -/
def splitOnPred (p : Char → Bool) : List Char → List (List Char)
  | [] => [[]]
  | a :: rest =>
    if p a then [] :: splitOnPred p rest
    else
      match splitOnPred p rest with
      | [] => [[a]]
      | piece :: pieces => (a :: piece) :: pieces

/-- Python '\n'.join(pieces). -/
def joinWithNL : List (List Char) → List Char
  | [] => []
  | [piece] => piece
  | piece :: next :: rest => piece ++ '\n' :: joinWithNL (next :: rest)

/-- Python pat in s (substring containment), on char lists. -/
def listContainsSub (pat : List Char) : List Char → Bool
  | [] => pat.isEmpty
  | c :: rest => pat.isPrefixOf (c :: rest) || listContainsSub pat rest

def pyStartsWith (s pre : String) : Bool := pre.data.isPrefixOf s.data

/-- Whether the string contains the two-character sequence '.' ' '.
Used to reason about replDotSpace. -/
def hasDotSpace : List Char → Bool
  | [] => false
  | [_] => false
  | a :: b :: rest => (a = '.' && b = ' ') || hasDotSpace (b :: rest)

/-! ## JSON values (the result of Python json.loads)

Python dicts are association lists; json.loads never produces
duplicate keys, so first-key lookup agrees with Python dict lookup.
-/

inductive Json where
  | jnull
  | jbool (b : Bool)
  | jint (n : Int)
  | jstr (s : String)
  | jarr (elems : List Json)
  | jobj (fields : List (String × Json))

def lookupField : List (String × Json) → String → Option Json
  | [], _ => none
  | (k, v) :: rest, key => if k = key then some v else lookupField rest key

/-- Python d.get(key, default). -/
def getD (fs : List (String × Json)) (k : String) (d : Json) : Json :=
  match lookupField fs k with
  | some v => v
  | none => d

/-- Python truthiness of a JSON-derived value. -/
def pyTruthy : Json → Bool
  | Json.jnull => false
  | Json.jbool b => b
  | Json.jint n => n != 0
  | Json.jstr s => s != ""
  | Json.jarr l => !l.isEmpty
  | Json.jobj l => !l.isEmpty

/-! ## The normalized record (job_data dict, all_scraper.py lines 58-85)

Every field holds a Python value; Python None is Json.jnull.
-/

structure JobData where
  title : Json
  description : Json
  category : Json
  jobType : Json
  location : Json
  address : Json
  salary : Json
  salaryType : Json
  maxSalary : Json
  experience : Json
  qualification : Json
  careerLevel : Json
  expiryDate : Json
  deadlineDate : Json
  applyType : Json
  applyUrl : Json
  applyEmail : Json
  featured : Json
  filled : Json
  urgent : Json
  featuredImage : Json
  videoUrl : Json
  tag : Json
  photos : Json
  gender : Json
  mapLocation : Json

def initJobData : JobData :=
  { title := Json.jnull
    description := Json.jnull
    category := Json.jnull
    jobType := Json.jnull
    location := Json.jnull
    address := Json.jnull
    salary := Json.jnull
    salaryType := Json.jnull
    maxSalary := Json.jnull
    experience := Json.jnull
    qualification := Json.jnull
    careerLevel := Json.jnull
    expiryDate := Json.jnull
    deadlineDate := Json.jnull
    applyType := Json.jnull
    applyUrl := Json.jnull
    applyEmail := Json.jnull
    featured := Json.jbool false
    filled := Json.jbool false
    urgent := Json.jbool false
    featuredImage := Json.jnull
    videoUrl := Json.jnull
    tag := Json.jstr "Costa Rica"
    photos := Json.jarr []
    gender := Json.jnull
    mapLocation := Json.jnull }

/-! ## Vocabulary mappings -/

/-- all_scraper.py lines 116-121 / scraper3.py lines 213-218: the
employment-type dict .get(code, code). -/
def employmentTypeLabel (s : String) : String :=
  if s = "FULL_TIME" then "Tiempo Completo"
  else if s = "PART_TIME" then "Tiempo parcial"
  else if s = "TEMPORARY" then "Temporario"
  else if s = "CONTRACT" then "Contrato"
  else s

/-- all_scraper.py lines 151-155: the salary-unit dict .get(code, '').
Note the default is the empty string, not the code. -/
def salaryUnitLabel (s : String) : String :=
  if s = "MONTH" then "mensual"
  else if s = "YEAR" then "anual"
  else if s = "HOUR" then "hora"
  else ""

/-- import.py lines 87-96: if/elif chain over employment-type codes. -/
def importEmploymentTypeLabel (s : String) : String :=
  if s = "FULL_TIME" then "Full Time"
  else if s = "PART_TIME" then "Part Time"
  else if s = "TEMPORARY" then "Temporary"
  else if s = "CONTRACT" then "Contract"
  else s

/-- all_scraper.py lines 107-110: the JSON-LD description transform
description.replace('. ', '.\r\n') followed by .strip(). -/
def allScraperDescTransform (s : String) : String :=
  pyStrip (String.mk (replDotSpace s.data))

/-- import.py lines 76-81: normalize CR forms to '\n', split into
lines, strip each line, re-join with '\n'. -/
def importNormalizeDesc (s : String) : String :=
  String.mk (joinWithNL ((splitOnPred (fun c => c = '\n') (normNL s.data)).map stripL))

/-! ## all_scraper.py JSON-LD interpretation (lines 88-158)

Each modelled script element carries the result of json.loads on its
(whitespace-collapsed) text; none stands for an absent/empty string or
a JSON parse error, both of which reach continue in the source.  Each
processing step returns none when the corresponding Python statements
would raise (caught by the per-block except, which keeps all earlier
mutations of job_data).
-/

def stepTitle (fs : List (String × Json)) (jd : JobData) : Option JobData :=
  match getD fs "title" (Json.jstr "") with
  | Json.jstr s => some { jd with title := Json.jstr (pyStrip s) }
  | _ => none

def stepDescription (fs : List (String × Json)) (jd : JobData) : Option JobData :=
  match getD fs "description" (Json.jstr "") with
  | Json.jstr "" => some jd
  | Json.jstr s => some { jd with description := Json.jstr (allScraperDescTransform s) }
  | Json.jnull => some jd
  | Json.jbool false => some jd
  | Json.jint 0 => some jd
  | Json.jarr [] => some jd
  | Json.jobj [] => some jd
  | _ => none

def stepDates (fs : List (String × Json)) (jd : JobData) : Option JobData :=
  some { jd with expiryDate := getD fs "validThrough" Json.jnull
                 deadlineDate := getD fs "validThrough" Json.jnull }

def stepEmployment (fs : List (String × Json)) (jd : JobData) : Option JobData :=
  match getD fs "employmentType" (Json.jstr "") with
  | Json.jstr s => some { jd with jobType := Json.jstr (employmentTypeLabel s) }
  | Json.jarr _ => none
  | Json.jobj _ => none
  | v => some { jd with jobType := v }

def stepEducation (fs : List (String × Json)) (jd : JobData) : Option JobData :=
  match getD fs "educationRequirements" (Json.jobj []) with
  | Json.jobj efs =>
    match getD efs "credentialCategory" (Json.jstr "") with
    | Json.jstr s => some { jd with qualification := Json.jstr (pyStrip s) }
    | _ => none
  | _ => some jd

def stepLocation (fs : List (String × Json)) (jd : JobData) : Option JobData :=
  match getD fs "jobLocation" (Json.jobj []) with
  | Json.jobj lfs =>
    match getD lfs "address" (Json.jobj []) with
    | Json.jobj afs =>
      match getD afs "addressLocality" (Json.jstr ""), getD afs "addressRegion" (Json.jstr "") with
      | Json.jstr l0, Json.jstr r0 =>
        if pyStrip l0 ≠ "" then
          some { jd with location := Json.jstr (pyStrip l0)
                         address := Json.jstr (pyStrip l0)
                         mapLocation := Json.jstr (pyStrip l0) }
        else if pyStrip r0 ≠ "" then
          some { jd with location := Json.jstr (pyStrip r0)
                         address := Json.jstr (pyStrip r0)
                         mapLocation := Json.jstr (pyStrip r0) }
        else some jd
      | _, _ => none
    | _ => some jd
  | _ => some jd

/-- Lines 146-148: the isinstance(int, float, str) guard and
str(salary_value).strip().  A Python bool passes the isinstance check
(bool is a subclass of int) and prints as True/False. -/
def stepSalaryValue (vfs : List (String × Json)) (jd : JobData) : JobData :=
  match getD vfs "value" Json.jnull with
  | Json.jint n => { jd with salary := Json.jstr (pyStrip (toString n)) }
  | Json.jstr s => { jd with salary := Json.jstr (pyStrip s) }
  | Json.jbool b => { jd with salary := Json.jstr (if b then "True" else "False") }
  | _ => jd

/-- Lines 142-155.  The salary-value write (lines 146-148) never
raises.  An unhashable unitText (a list or a dict) raises TypeError at
the dict lookup on line 151, after the salary write, and the per-block
except keeps that write; since line 151 is the last statement of the
block, the post-exception state is just the state without the
salary-type write, so this step is total. -/
def stepSalary (fs : List (String × Json)) (jd : JobData) : JobData :=
  match getD fs "baseSalary" (Json.jobj []) with
  | Json.jobj sfs =>
    match getD sfs "value" (Json.jobj []) with
    | Json.jobj vfs =>
      match getD vfs "unitText" (Json.jstr "") with
      | Json.jstr u =>
        { stepSalaryValue vfs jd with salaryType := Json.jstr (salaryUnitLabel u) }
      | Json.jarr _ => stepSalaryValue vfs jd
      | Json.jobj _ => stepSalaryValue vfs jd
      | _ => { stepSalaryValue vfs jd with salaryType := Json.jstr "" }
    | _ => jd
  | _ => jd

/-- Lines 106-155 of all_scraper.py, run on one selected JobPosting
dict.  An exception inside the block keeps all mutations already made
(the except clause just continues with the next script). -/
def processItem (fs : List (String × Json)) (jd0 : JobData) : JobData :=
  match stepTitle fs jd0 with
  | none => jd0
  | some jd1 =>
    match stepDescription fs jd1 with
    | none => jd1
    | some jd2 =>
      match stepDates fs jd2 with
      | none => jd2
      | some jd3 =>
        match stepEmployment fs jd3 with
        | none => jd3
        | some jd4 =>
          match stepEducation fs jd4 with
          | none => jd4
          | some jd5 =>
            match stepLocation fs jd5 with
            | none => jd5
            | some jd6 => stepSalary fs jd6

/-- Selection result for one JSON-LD script (all_scraper.py 95-104). -/
inductive LdSelect where
  | err
  | skip
  | item (fs : List (String × Json))

/-- The for-item-in-graph loop with for/else (lines 98-102):
first graph element whose declared type is JobPosting; a non-dict
element raises (.get on it). -/
def findGraphItem : List Json → LdSelect
  | [] => LdSelect.skip
  | Json.jobj fs :: rest =>
    match lookupField fs "@type" with
    | some (Json.jstr "JobPosting") => LdSelect.item fs
    | _ => findGraphItem rest
  | _ :: _ => LdSelect.err

/-- The elif branch on '@graph' (lines 97-102): iterating a non-list
value either raises or, for empty iterables, falls to the for/else. -/
def selectGraph (fs : List (String × Json)) : LdSelect :=
  match lookupField fs "@graph" with
  | some (Json.jarr items) => findGraphItem items
  | some (Json.jstr "") => LdSelect.skip
  | some (Json.jstr _) => LdSelect.err
  | some (Json.jobj []) => LdSelect.skip
  | some (Json.jobj _) => LdSelect.err
  | some _ => LdSelect.err
  | none => LdSelect.skip

/-- Lines 95-104: pick the JobPosting item of one parsed script. -/
def selectItem : Json → LdSelect
  | Json.jobj fs =>
    match lookupField fs "@type" with
    | some (Json.jstr s) => if s = "JobPosting" then LdSelect.item fs else selectGraph fs
    | _ => selectGraph fs
  | _ => LdSelect.skip

/-- One iteration of the script loop: absent/unparseable scripts and
raising blocks leave job_data as it stands. -/
def processScript (script : Option Json) (jd : JobData) : JobData :=
  match script with
  | none => jd
  | some j =>
    match selectItem j with
    | LdSelect.err => jd
    | LdSelect.skip => jd
    | LdSelect.item fs => processItem fs jd

/-- The whole JSON-LD loop (lines 88-158): every script element is
visited, in document order.  There is no break: a later matching
block runs processItem over the record again. -/
def interpretLd (scripts : List (Option Json)) (jd : JobData) : JobData :=
  scripts.foldl (fun acc s => processScript s acc) jd

/-! ## all_scraper.py HTML fallback phases (lines 160-272)

The document abstraction: each field holds exactly what the
BeautifulSoup queries of the source return.
-/

/-- Outcome of the experience label/row/cell walk
(extract_experience, all_scraper.py lines 23-44). -/
inductive ExpLookup where
  | noLabel
  | noDtParent
  | noDdSibling
  | found (rawText : String)

structure Doc where
  ldScripts : List (Option Json)
  h1 : Option String
  hasPremiumBadge : Bool
  hasFilledText : Bool
  hasUrgentText : Bool
  descCandidates : List String
  expLookup : ExpLookup
  breadcrumbTexts : List String
  metaKeywords : Option String
  tagTexts : List String
  imgSrc : Option String

def baseUrl : String := "https://trabajosdiarios.co.cr"

/-- Fallback title (lines 161-164). -/
def fallbackTitle (doc : Doc) (jd : JobData) : JobData :=
  if pyTruthy jd.title then jd
  else
    match doc.h1 with
    | some t => { jd with title := Json.jstr t }
    | none => jd

/-- Badge detection (lines 167-175). -/
def badgesStep (doc : Doc) (jd : JobData) : JobData :=
  let jd1 := if doc.hasPremiumBadge then { jd with featured := Json.jbool true } else jd
  let jd2 := if doc.hasFilledText then { jd1 with filled := Json.jbool true } else jd1
  if doc.hasUrgentText then { jd2 with urgent := Json.jbool true } else jd2

/-- The pick-the-longest loop over candidate texts (lines 210-216):
strictly longer nonempty text replaces the best so far. -/
def bestCandidateGo (best : Option String) (bestLen : Nat) : List String → Option String
  | [] => best
  | t :: rest =>
    if t ≠ "" ∧ bestLen < t.length then bestCandidateGo (some t) t.length rest
    else bestCandidateGo best bestLen rest

/-- Visible-description fallback (lines 178-220). -/
def fallbackDescription (doc : Doc) (jd : JobData) : JobData :=
  if pyTruthy jd.description then jd
  else
    match bestCandidateGo none 0 doc.descCandidates with
    | some best => if best = "" then jd else { jd with description := Json.jstr (normNLS best) }
    | none => jd

/-- The value extract_experience writes into _job_experience. -/
def expResult : ExpLookup → Json
  | ExpLookup.noLabel => Json.jnull
  | ExpLookup.noDtParent => Json.jnull
  | ExpLookup.noDdSibling => Json.jnull
  | ExpLookup.found t => if pyStrip t = "" then Json.jnull else Json.jstr (pyStrip t)

/-- extract_experience (lines 23-44), called at line 223; the dd cell
text is read with get_text(strip=True). -/
def expStep (doc : Doc) (jd : JobData) : JobData :=
  { jd with experience := expResult doc.expLookup }

/-- Cleanup of one category candidate (line 249):
re.sub(r'\s+', ' ', c).strip(). -/
def cleanCat (c : String) : String := pyStrip (collapseWsS c)

/-- The case-insensitive first-seen dedup loop (lines 247-251). -/
def dedupGo (seen : List String) : List String → List String
  | [] => seen
  | c :: rest =>
    if cleanCat c ≠ "" ∧ pyLower (cleanCat c) ∉ seen.map pyLower then
      dedupGo (seen ++ [cleanCat c]) rest
    else dedupGo seen rest

def dedupCats (cats : List String) : List String := dedupGo [] cats

def isSepChar (c : Char) : Bool := c = ',' || c = '|' || c = ';'

/-- Candidate pooling (lines 226-245): breadcrumb link texts, the
meta-keywords content split on comma/pipe/semicolon, tag link texts. -/
def gatherCategories (doc : Doc) : List String :=
  doc.breadcrumbTexts.filter (fun t => t ≠ "") ++
    (match doc.metaKeywords with
     | some content =>
       if content = "" then []
       else ((splitOnPred isSepChar content.data).map (fun l => String.mk (stripL l))).filter
         (fun k => k ≠ "")
     | none => []) ++
    doc.tagTexts.filter (fun t => t ≠ "")

/-- Category extraction (lines 225-254). -/
def categoryStep (doc : Doc) (jd : JobData) : JobData :=
  match dedupCats (gatherCategories doc) with
  | [] => jd
  | seen => { jd with category := Json.jstr (String.intercalate "," seen) }

/-- Featured-image resolution (lines 256-265). -/
def imageStep (doc : Doc) (jd : JobData) : JobData :=
  match doc.imgSrc with
  | none => jd
  | some src =>
    if src = "" then jd
    else if pyStartsWith src "http" then { jd with featuredImage := Json.jstr src }
    else if pyStartsWith src "//" then { jd with featuredImage := Json.jstr ("https:" ++ src) }
    else if pyStartsWith src "/" then { jd with featuredImage := Json.jstr (baseUrl ++ src) }
    else jd

/-- Final apply info and max salary (lines 267-270). -/
def finalizeStep (url : String) (jd : JobData) : JobData :=
  { jd with applyType := Json.jstr "external"
            applyUrl := Json.jstr url
            maxSalary := jd.salary }

/-- all_scraper.py scrape_job_detail (lines 46-272), for a
successfully fetched and parsed page. -/
def scrapeJobDetail (doc : Doc) (url : String) : JobData :=
  finalizeStep url
    (imageStep doc
      (categoryStep doc
        (expStep doc
          (fallbackDescription doc
            (badgesStep doc
              (fallbackTitle doc
                (interpretLd doc.ldScripts initJobData)))))))

/-! ## import.py JSON-LD interpretation (lines 56-153)

import.py reads only the FIRST script element (soup.find), handles
only '@graph'-wrapped metadata, and its except clause catches only
JSONDecodeError: any other exception aborts scrape_job_detail
entirely (outer except, line 321), modelled by none.
-/

def importStepTitle (fs : List (String × Json)) (jd : JobData) : Option JobData :=
  match getD fs "title" (Json.jstr "") with
  | Json.jstr s => some { jd with title := Json.jstr (pyStrip s) }
  | _ => none

def importStepDescription (fs : List (String × Json)) (jd : JobData) : Option JobData :=
  match getD fs "description" (Json.jstr "") with
  | Json.jstr "" => some jd
  | Json.jstr s => some { jd with description := Json.jstr (importNormalizeDesc s) }
  | Json.jnull => some jd
  | Json.jbool false => some jd
  | Json.jint 0 => some jd
  | Json.jarr [] => some jd
  | Json.jobj [] => some jd
  | _ => none

def importStepDates (fs : List (String × Json)) (jd : JobData) : Option JobData :=
  some { jd with expiryDate := getD fs "validThrough" Json.jnull
                 deadlineDate := getD fs "validThrough" Json.jnull }

def importStepEmployment (fs : List (String × Json)) (jd : JobData) : Option JobData :=
  match getD fs "employmentType" (Json.jstr "") with
  | Json.jstr s => some { jd with jobType := Json.jstr (importEmploymentTypeLabel s) }
  | v => some { jd with jobType := v }

def importStepEducation (fs : List (String × Json)) (jd : JobData) : Option JobData :=
  match getD fs "educationRequirements" (Json.jobj []) with
  | Json.jobj efs =>
    match getD efs "credentialCategory" (Json.jstr "") with
    | Json.jstr s => some { jd with qualification := Json.jstr (pyStrip s) }
    | _ => none
  | _ => some jd

/-- import.py lines 107-111: years = int(months)/12; whole years when
years >= 1 (plural unless exactly 12 months), otherwise the raw value
followed by " months". -/
def importExperienceText (raw : String) (m : Int) : String :=
  if 12 ≤ m then toString (m.toNat / 12) ++ " year" ++ (if m = 12 then "" else "s")
  else raw ++ " months"

def importStepExperience (fs : List (String × Json)) (jd : JobData) : Option JobData :=
  match getD fs "experienceRequirements" (Json.jobj []) with
  | Json.jobj efs =>
    match getD efs "monthsOfExperience" Json.jnull with
    | Json.jnull => some jd
    | Json.jint m =>
      if m = 0 then some jd
      else some { jd with experience := Json.jstr (importExperienceText (toString m) m) }
    | Json.jbool b =>
      if b then some { jd with experience := Json.jstr (importExperienceText "True" 1) }
      else some jd
    | Json.jstr s =>
      if s = "" then some jd
      else
        match s.toInt? with
        | some m => some { jd with experience := Json.jstr (importExperienceText s m) }
        | none => none
    | _ => none
  | _ => some jd

def importStepCategoryOcc (fs : List (String × Json)) (jd : JobData) : Option JobData :=
  match getD fs "occupationalCategory" (Json.jstr "") with
  | Json.jstr "" => some jd
  | Json.jstr s => some { jd with category := Json.jstr (pyStrip s) }
  | Json.jnull => some jd
  | Json.jbool false => some jd
  | Json.jint 0 => some jd
  | Json.jarr [] => some jd
  | Json.jobj [] => some jd
  | _ => none

def importStepCategoryInd (fs : List (String × Json)) (jd : JobData) : Option JobData :=
  if pyTruthy jd.category then some jd
  else
    match getD fs "industry" (Json.jstr "") with
    | Json.jstr "" => some jd
    | Json.jstr s => some { jd with category := Json.jstr (pyStrip s) }
    | Json.jnull => some jd
    | Json.jbool false => some jd
    | Json.jint 0 => some jd
    | Json.jarr [] => some jd
    | Json.jobj [] => some jd
    | _ => none

def importStepLocation (fs : List (String × Json)) (jd : JobData) : Option JobData :=
  match getD fs "jobLocation" (Json.jobj []) with
  | Json.jobj lfs =>
    match getD lfs "address" (Json.jobj []) with
    | Json.jobj afs =>
      match getD afs "addressLocality" (Json.jstr ""), getD afs "addressRegion" (Json.jstr "") with
      | Json.jstr l0, Json.jstr r0 =>
        if pyStrip l0 ≠ "" then
          some { jd with location := Json.jstr (pyStrip l0), address := Json.jstr (pyStrip l0) }
        else if pyStrip r0 ≠ "" then
          some { jd with location := Json.jstr (pyStrip r0), address := Json.jstr (pyStrip r0) }
        else some jd
      | _, _ => none
    | _ => some jd
  | _ => some jd

/-- import.py lines 139-152: the raw value is stored as-is in both
_job_salary and _job_max_salary; only MONTH/YEAR/HOUR set a salary
type, with no fallback branch. -/
def importStepSalary (fs : List (String × Json)) (jd : JobData) : Option JobData :=
  match getD fs "baseSalary" (Json.jobj []) with
  | Json.jobj sfs =>
    match getD sfs "value" (Json.jobj []) with
    | Json.jobj vfs =>
      let jd1 := { jd with salary := getD vfs "value" Json.jnull
                           maxSalary := getD vfs "value" Json.jnull }
      match getD vfs "unitText" (Json.jstr "") with
      | Json.jstr u =>
        if u = "MONTH" then some { jd1 with salaryType := Json.jstr "Monthly" }
        else if u = "YEAR" then some { jd1 with salaryType := Json.jstr "Yearly" }
        else if u = "HOUR" then some { jd1 with salaryType := Json.jstr "Hourly" }
        else some jd1
      | _ => some jd1
    | _ => some jd
  | _ => some jd

/-- import.py lines 69-152, run over one @graph item of JobPosting
type. -/
def importProcessItem (fs : List (String × Json)) (jd0 : JobData) : Option JobData :=
  match importStepTitle fs jd0 with
  | none => none
  | some jd1 =>
    match importStepDescription fs jd1 with
    | none => none
    | some jd2 =>
      match importStepDates fs jd2 with
      | none => none
      | some jd3 =>
        match importStepEmployment fs jd3 with
        | none => none
        | some jd4 =>
          match importStepEducation fs jd4 with
          | none => none
          | some jd5 =>
            match importStepExperience fs jd5 with
            | none => none
            | some jd6 =>
              match importStepCategoryOcc fs jd6 with
              | none => none
              | some jd7 =>
                match importStepCategoryInd fs jd7 with
                | none => none
                | some jd8 =>
                  match importStepLocation fs jd8 with
                  | none => none
                  | some jd9 => importStepSalary fs jd9

/-- import.py lines 67-152: every @graph item whose type is
JobPosting is processed (there is no break); a non-dict item raises
on .get, which is fatal for import.py. -/
def importGraphLoop : List Json → JobData → Option JobData
  | [], jd => some jd
  | Json.jobj fs :: rest, jd =>
    match lookupField fs "@type" with
    | some (Json.jstr "JobPosting") =>
      match importProcessItem fs jd with
      | none => none
      | some jd2 => importGraphLoop rest jd2
    | _ => importGraphLoop rest jd
  | _ :: _, _ => none

/-- import.py lines 56-153: the structured-data interpreter.  Only a
dict with an '@graph' key is examined at all; a top-level JobPosting
dict (no '@graph') extracts nothing.  The argument is the parsed
first script element (none: absent script or JSONDecodeError, which
is the one caught exception). -/
def importExtractLd (script : Option Json) (jd : JobData) : Option JobData :=
  match script with
  | none => some jd
  | some (Json.jobj fs) =>
    match lookupField fs "@graph" with
    | some (Json.jarr items) => importGraphLoop items jd
    | some (Json.jstr "") => some jd
    | some (Json.jstr _) => none
    | some (Json.jobj []) => some jd
    | some (Json.jobj _) => none
    | some _ => none
    | none => some jd
  | some (Json.jarr els) =>
    if els.any (fun e => match e with | Json.jstr s => s = "@graph" | _ => false) then none
    else some jd
  | some (Json.jstr s) =>
    if listContainsSub "@graph".data s.data then none else some jd
  | some _ => none

/-! ## scraper3.py category selection (lines 387-429) -/

/-- The gazetteer of location names (scraper3.py lines 391-398). -/
def scraper3LocationKeywords : List String :=
  ["san josé", "san jose", "costa rica", "inicio", "home",
   "alajuela", "cartago", "heredia", "guanacaste", "puntarenas", "limón",
   "santa ana", "escazú", "curridabat", "desamparados", "tibás",
   "san pedro", "san francisco", "guadalupe", "moravia", "pavas",
   "goicoechea", "montes de oca", "san rafael", "san antonio",
   "pozos", "hatillo", "coronado", "santo domingo", "barva"]

/-- Per-candidate cleanup (scraper3.py lines 401-405): collapse
whitespace, strip, and keep only the part before the first comma. -/
def scraper3CleanCandidate (cat : String) : String :=
  if (pyStrip (collapseWsS cat)).data.contains ',' then
    pyStrip (String.mk ((pyStrip (collapseWsS cat)).data.takeWhile (fun c => c ≠ ',')))
  else pyStrip (collapseWsS cat)

/-- The take-only-the-first-valid-candidate loop (scraper3.py lines
400-421): skip gazetteer names, skip candidates containing a
gazetteer name, skip candidates shorter than three characters. -/
def selectFinalCategory : List String → Option String
  | [] => none
  | cat :: rest =>
    if pyLower (scraper3CleanCandidate cat) ∈ scraper3LocationKeywords then
      selectFinalCategory rest
    else if scraper3LocationKeywords.any
        (fun loc => listContainsSub loc.data (pyLower (scraper3CleanCandidate cat)).data) then
      selectFinalCategory rest
    else if (scraper3CleanCandidate cat).length < 3 then selectFinalCategory rest
    else some (scraper3CleanCandidate cat)

/-! ## The specification reading of description normalization

For the refinement comparison only: the spec words say line breaks are
normalized to a single newline convention and only leading/trailing
whitespace is trimmed.
-/

def specDescriptionNormalize (s : String) : String := pyStrip (normNLS s)

/-! ## Concrete fixtures used in the theorems below -/

/-- The metadata block of the end-to-end scenario: a JobPosting with
title Vendedor, employment type FULL_TIME and a monthly base salary of
450000. -/
def c1Block : Json :=
  Json.jobj
    [("@type", Json.jstr "JobPosting"),
     ("title", Json.jstr "Vendedor"),
     ("employmentType", Json.jstr "FULL_TIME"),
     ("baseSalary",
       Json.jobj [("value", Json.jobj [("value", Json.jint 450000),
         ("unitText", Json.jstr "MONTH")])])]

/-- A minimal JobPosting block carrying only a title. -/
def mkTitleBlock (t : String) : Json :=
  Json.jobj [("@type", Json.jstr "JobPosting"), ("title", Json.jstr t)]

/-- A well-formed JobPosting block with a string title, an arbitrary
validThrough value, a string employment-type code, and a base-salary
value object with an arbitrary salary value and a string unit code —
the shape the detail pages of this site carry. -/
def mkPostingBlock (t : String) (vt : Json) (e : String) (salv : Json) (unit : String) : Json :=
  Json.jobj
    [("@type", Json.jstr "JobPosting"),
     ("title", Json.jstr t),
     ("validThrough", vt),
     ("employmentType", Json.jstr e),
     ("baseSalary",
       Json.jobj [("value", Json.jobj [("value", salv), ("unitText", Json.jstr unit)])])]

/-- A JobPosting block carrying only a description. -/
def mkDescBlock (d : String) : Json :=
  Json.jobj [("@type", Json.jstr "JobPosting"), ("description", Json.jstr d)]

/-- A JobPosting block carrying only an employment type. -/
def mkEmploymentBlock (s : String) : Json :=
  Json.jobj [("@type", Json.jstr "JobPosting"), ("employmentType", Json.jstr s)]

/-- A detail document with no extractable content at all. -/
def emptyDoc : Doc :=
  { ldScripts := []
    h1 := none
    hasPremiumBadge := false
    hasFilledText := false
    hasUrgentText := false
    descCandidates := []
    expLookup := ExpLookup.noLabel
    breadcrumbTexts := []
    metaKeywords := none
    tagTexts := []
    imgSrc := none }

/-- The end-to-end scenario document: its only structured-data block
is c1Block. -/
def c1Doc : Doc := { emptyDoc with ldScripts := [some c1Block] }

/-- A document with two JobPosting script blocks, titled A and B. -/
def twoBlockDoc : Doc :=
  { emptyDoc with ldScripts := [some (mkTitleBlock "A"), some (mkTitleBlock "B")] }

/-- A document whose only category candidate is the breadcrumb text
San José, a gazetteer location name. -/
def sanJoseDoc : Doc := { emptyDoc with breadcrumbTexts := ["San José"] }

/-- A document whose first matching image has a relative source
without a leading slash. -/
def relImageDoc : Doc := { emptyDoc with imgSrc := some "images/pic.jpg" }

/-- A document whose experience label walk finds a value cell. -/
def expFoundDoc : Doc := { emptyDoc with expLookup := ExpLookup.found "  2 anos  " }

/-! ## Lemmas about the string primitives -/

theorem dropWhile_dropWhile_self (p : Char → Bool) (l : List Char) :
    (l.dropWhile p).dropWhile p = l.dropWhile p := by
  induction l with
  | nil => rfl
  | cons a t ih =>
    by_cases h : p a
    · simp [List.dropWhile_cons, h, ih]
    · simp [List.dropWhile_cons, h]

theorem head_dropWhile_false (p : Char → Bool) (l : List Char) :
    ∀ a, (l.dropWhile p).head? = some a → p a = false := by
  induction l with
  | nil => intro a h; simp at h
  | cons b t ih =>
    intro a h
    by_cases hb : p b
    · rw [List.dropWhile_cons_of_pos hb] at h
      exact ih a h
    · rw [List.dropWhile_cons_of_neg hb] at h
      simp at h
      rw [← h]
      simpa using hb

theorem dropWhile_eq_self_of_head (p : Char → Bool) (l : List Char)
    (h : ∀ a, l.head? = some a → p a = false) : l.dropWhile p = l := by
  cases l with
  | nil => rfl
  | cons a t =>
    have := h a (by simp)
    simp [List.dropWhile_cons, this]

theorem dropWhile_suffix_exists (p : Char → Bool) (l : List Char) :
    ∃ s, s ++ l.dropWhile p = l := by
  induction l with
  | nil => exact ⟨[], rfl⟩
  | cons a t ih =>
    by_cases h : p a
    · obtain ⟨s, hs⟩ := ih
      exact ⟨a :: s, by simp [List.dropWhile_cons_of_pos h, hs]⟩
    · exact ⟨[], by simp [List.dropWhile_cons_of_neg h]⟩

theorem stripL_isInfix (l : List Char) : ∃ s t, s ++ stripL l ++ t = l := by
  obtain ⟨s, hs⟩ := dropWhile_suffix_exists isPySpace l
  obtain ⟨u, hu⟩ := dropWhile_suffix_exists isPySpace (l.dropWhile isPySpace).reverse
  refine ⟨s, u.reverse, ?_⟩
  have hmid : stripL l ++ u.reverse = l.dropWhile isPySpace := by
    unfold stripL
    rw [← List.reverse_append, hu, List.reverse_reverse]
  rw [List.append_assoc, hmid, hs]

theorem mem_of_mem_stripL {c : Char} {l : List Char} (h : c ∈ stripL l) : c ∈ l := by
  obtain ⟨s, t, hst⟩ := stripL_isInfix l
  rw [← hst]
  simp [h]

theorem stripL_head_false (l : List Char) :
    ∀ a, (stripL l).head? = some a → isPySpace a = false := by
  intro a h
  obtain ⟨u, hu⟩ := dropWhile_suffix_exists isPySpace (l.dropWhile isPySpace).reverse
  have hrev : stripL l ++ u.reverse = l.dropWhile isPySpace := by
    unfold stripL
    rw [← List.reverse_append, hu, List.reverse_reverse]
  cases hsl : stripL l with
  | nil => rw [hsl] at h; simp at h
  | cons x xs =>
    rw [hsl] at h
    simp at h
    subst h
    apply head_dropWhile_false isPySpace l
    rw [← hrev, hsl]
    simp

theorem stripL_reverse (l : List Char) :
    (stripL l).reverse = (l.dropWhile isPySpace).reverse.dropWhile isPySpace := by
  unfold stripL
  rw [List.reverse_reverse]

theorem stripL_eq_self (l : List Char) (h1 : l.dropWhile isPySpace = l)
    (h2 : l.reverse.dropWhile isPySpace = l.reverse) : stripL l = l := by
  unfold stripL
  rw [h1, h2, List.reverse_reverse]

theorem stripL_stripL (l : List Char) : stripL (stripL l) = stripL l := by
  apply stripL_eq_self
  · exact dropWhile_eq_self_of_head isPySpace _ (stripL_head_false l)
  · rw [stripL_reverse, dropWhile_dropWhile_self]

theorem hasDotSpace_cons_false {c : Char} {R : List Char} (hc : c ≠ '.')
    (hR : hasDotSpace R = false) : hasDotSpace (c :: R) = false := by
  cases R with
  | nil => rfl
  | cons r R2 =>
    show ((c = '.' && r = ' ') || hasDotSpace (r :: R2)) = false
    simp [hc, hR]

theorem hasDotSpace_cons_dot {R : List Char} (h : ∀ x, R.head? = some x → x ≠ ' ')
    (hR : hasDotSpace R = false) : hasDotSpace ('.' :: R) = false := by
  cases R with
  | nil => rfl
  | cons r R2 =>
    show (('.' = '.' && r = ' ') || hasDotSpace (r :: R2)) = false
    have := h r (by simp)
    simp [this, hR]

theorem replDotSpace_head (m : List Char) :
    (replDotSpace m).head? = m.head? ∨ (replDotSpace m).head? = some '.' := by
  cases m with
  | nil => left; rfl
  | cons a t =>
    cases t with
    | nil => left; rfl
    | cons b rest =>
      by_cases h : (a = '.' && b = ' ') = true
      · right
        show (if a = '.' && b = ' ' then '.' :: '\r' :: '\n' :: replDotSpace rest
              else a :: replDotSpace (b :: rest)).head? = some '.'
        rw [if_pos h]
        rfl
      · left
        show (if a = '.' && b = ' ' then '.' :: '\r' :: '\n' :: replDotSpace rest
              else a :: replDotSpace (b :: rest)).head? = (a :: b :: rest).head?
        rw [if_neg h]
        rfl

theorem hasDotSpace_replDotSpace (l : List Char) :
    hasDotSpace (replDotSpace l) = false := by
  induction l using replDotSpace.induct with
  | case1 => rfl
  | case2 c => rfl
  | case3 a b rest h ih =>
    show hasDotSpace (if a = '.' && b = ' ' then '.' :: '\r' :: '\n' :: replDotSpace rest
          else a :: replDotSpace (b :: rest)) = false
    rw [if_pos h]
    apply hasDotSpace_cons_dot
    · intro x hx
      simp at hx
      rw [← hx]
      decide
    · apply hasDotSpace_cons_false (by decide)
      apply hasDotSpace_cons_false (by decide)
      exact ih
  | case4 a b rest h ih =>
    show hasDotSpace (if a = '.' && b = ' ' then '.' :: '\r' :: '\n' :: replDotSpace rest
          else a :: replDotSpace (b :: rest)) = false
    rw [if_neg h]
    by_cases ha : a = '.'
    · subst ha
      apply hasDotSpace_cons_dot _ ih
      intro x hx
      have hb : b ≠ ' ' := by
        intro hb
        exact h (by simp [hb])
      rcases replDotSpace_head (b :: rest) with hh | hh
      · rw [hh] at hx
        simp at hx
        rw [← hx]; exact hb
      · rw [hh] at hx
        simp at hx
        rw [← hx]; decide
    · exact hasDotSpace_cons_false ha ih

theorem replDotSpace_eq_self {l : List Char} (h : hasDotSpace l = false) :
    replDotSpace l = l := by
  induction l using replDotSpace.induct with
  | case1 => rfl
  | case2 c => rfl
  | case3 a b rest hm ih =>
    exfalso
    have hun : hasDotSpace (a :: b :: rest) = ((a = '.' && b = ' ') || hasDotSpace (b :: rest)) := rfl
    rw [hun, hm] at h
    simp at h
  | case4 a b rest hm ih =>
    show (if a = '.' && b = ' ' then '.' :: '\r' :: '\n' :: replDotSpace rest
          else a :: replDotSpace (b :: rest)) = a :: b :: rest
    rw [if_neg hm]
    have h2 : hasDotSpace (b :: rest) = false := by
      have hun : hasDotSpace (a :: b :: rest) = ((a = '.' && b = ' ') || hasDotSpace (b :: rest)) := rfl
      rw [hun] at h
      exact (Bool.or_eq_false_iff.mp h).2
    rw [ih h2]

theorem hasDotSpace_append (x y : List Char) :
    hasDotSpace (x ++ '.' :: ' ' :: y) = true := by
  induction x with
  | nil =>
    show (('.' = '.' && ' ' = ' ') || hasDotSpace (' ' :: y)) = true
    simp
  | cons c x2 ih =>
    cases x2 with
    | nil =>
      show ((c = '.' && '.' = ' ') || hasDotSpace ('.' :: ' ' :: y)) = true
      simp only [List.nil_append] at ih
      rw [ih]
      simp
    | cons d x3 =>
      show ((c = '.' && d = ' ') || hasDotSpace (d :: x3 ++ '.' :: ' ' :: y)) = true
      rw [show d :: x3 ++ '.' :: ' ' :: y = (d :: x3) ++ '.' :: ' ' :: y from rfl, ih]
      simp

theorem hasDotSpace_exists {l : List Char} (h : hasDotSpace l = true) :
    ∃ x y, l = x ++ '.' :: ' ' :: y := by
  induction l with
  | nil => simp [hasDotSpace] at h
  | cons a t ih =>
    cases t with
    | nil => simp [hasDotSpace] at h
    | cons b rest =>
      have hun : hasDotSpace (a :: b :: rest) = ((a = '.' && b = ' ') || hasDotSpace (b :: rest)) := rfl
      rw [hun] at h
      simp only [Bool.or_eq_true, Bool.and_eq_true, decide_eq_true_eq] at h
      rcases h with ⟨ha, hb⟩ | h2
      · exact ⟨[], rest, by rw [ha, hb]; rfl⟩
      · obtain ⟨x, y, hxy⟩ := ih h2
        exact ⟨a :: x, y, by rw [show a :: b :: rest = a :: (b :: rest) from rfl, hxy]; rfl⟩

theorem hasDotSpace_stripL {l : List Char} (h : hasDotSpace l = false) :
    hasDotSpace (stripL l) = false := by
  by_contra hc
  have ht : hasDotSpace (stripL l) = true := by
    cases hv : hasDotSpace (stripL l) with
    | false => exact absurd hv hc
    | true => rfl
  obtain ⟨x, y, hxy⟩ := hasDotSpace_exists ht
  obtain ⟨s, t, hst⟩ := stripL_isInfix l
  have : l = (s ++ x) ++ '.' :: ' ' :: (y ++ t) := by
    rw [← hst, hxy]
    simp
  rw [this, hasDotSpace_append] at h
  cases h

theorem not_cr_mem_replCR (l : List Char) : '\r' ∉ replCR l := by
  intro h
  unfold replCR at h
  obtain ⟨c, _, hc⟩ := List.mem_map.mp h
  by_cases hcr : c = '\r'
  · rw [if_pos hcr] at hc
    cases hc
  · rw [if_neg hcr] at hc
    exact hcr hc

theorem replCRLF_eq_self {l : List Char} (h : '\r' ∉ l) : replCRLF l = l := by
  induction l using replCRLF.induct with
  | case1 => rfl
  | case2 c => rfl
  | case3 a b rest hm ih =>
    exfalso
    have ha : a = '\r' := by
      simp at hm
      exact hm.1
    exact h (by rw [ha]; simp)
  | case4 a b rest hm ih =>
    show (if a = '\r' && b = '\n' then '\n' :: replCRLF rest
          else a :: replCRLF (b :: rest)) = a :: b :: rest
    rw [if_neg hm]
    have h2 : '\r' ∉ b :: rest := by
      intro hb
      exact h (List.mem_cons_of_mem a hb)
    rw [ih h2]

theorem replCR_eq_self {l : List Char} (h : '\r' ∉ l) : replCR l = l := by
  unfold replCR
  have : ∀ c ∈ l, (if c = '\r' then '\n' else c) = c := by
    intro c hc
    rw [if_neg]
    intro hcr
    exact h (hcr ▸ hc)
  rw [List.map_congr_left this]
  simp

theorem not_cr_normNL (l : List Char) : '\r' ∉ normNL l := not_cr_mem_replCR _

theorem normNL_eq_self {l : List Char} (h : '\r' ∉ l) : normNL l = l := by
  unfold normNL
  rw [replCRLF_eq_self h, replCR_eq_self h]

theorem normNL_normNL (l : List Char) : normNL (normNL l) = normNL l :=
  normNL_eq_self (not_cr_normNL l)

theorem splitOnPred_ne_nil (p : Char → Bool) (l : List Char) : splitOnPred p l ≠ [] := by
  induction l with
  | nil => simp [splitOnPred]
  | cons a rest ih =>
    show (if p a then [] :: splitOnPred p rest
          else match splitOnPred p rest with
               | [] => [[a]]
               | piece :: pieces => (a :: piece) :: pieces) ≠ []
    by_cases h : p a
    · rw [if_pos h]; simp
    · rw [if_neg h]
      cases hs : splitOnPred p rest with
      | nil => simp
      | cons piece pieces => simp

theorem splitOnPred_pieces (p : Char → Bool) (l : List Char) :
    ∀ piece ∈ splitOnPred p l, ∀ c ∈ piece, p c = false := by
  induction l with
  | nil =>
    intro piece hp c hc
    simp [splitOnPred] at hp
    rw [hp] at hc
    cases hc
  | cons a rest ih =>
    intro piece hp c hc
    rw [show splitOnPred p (a :: rest) =
        (if p a then [] :: splitOnPred p rest
         else match splitOnPred p rest with
              | [] => [[a]]
              | piece :: pieces => (a :: piece) :: pieces) from rfl] at hp
    by_cases h : p a
    · rw [if_pos h] at hp
      rcases List.mem_cons.mp hp with h1 | h2
      · rw [h1] at hc; cases hc
      · exact ih piece h2 c hc
    · rw [if_neg h] at hp
      cases hs : splitOnPred p rest with
      | nil => exact absurd hs (splitOnPred_ne_nil p rest)
      | cons q qs =>
        rw [hs] at hp
        rcases List.mem_cons.mp hp with h1 | h2
        · rw [h1] at hc
          rcases List.mem_cons.mp hc with h3 | h4
          · rw [h3]
            simpa using h
          · exact ih q (by rw [hs]; simp) c h4
        · exact ih piece (by rw [hs]; simp [h2]) c hc

theorem splitOnPred_subset (p : Char → Bool) (l : List Char) :
    ∀ piece ∈ splitOnPred p l, ∀ c ∈ piece, c ∈ l := by
  induction l with
  | nil =>
    intro piece hp c hc
    simp [splitOnPred] at hp
    rw [hp] at hc
    cases hc
  | cons a rest ih =>
    intro piece hp c hc
    rw [show splitOnPred p (a :: rest) =
        (if p a then [] :: splitOnPred p rest
         else match splitOnPred p rest with
              | [] => [[a]]
              | piece :: pieces => (a :: piece) :: pieces) from rfl] at hp
    by_cases h : p a
    · rw [if_pos h] at hp
      rcases List.mem_cons.mp hp with h1 | h2
      · rw [h1] at hc; cases hc
      · exact List.mem_cons_of_mem a (ih piece h2 c hc)
    · rw [if_neg h] at hp
      cases hs : splitOnPred p rest with
      | nil => exact absurd hs (splitOnPred_ne_nil p rest)
      | cons q qs =>
        rw [hs] at hp
        rcases List.mem_cons.mp hp with h1 | h2
        · rw [h1] at hc
          rcases List.mem_cons.mp hc with h3 | h4
          · rw [h3]; simp
          · exact List.mem_cons_of_mem a (ih q (by rw [hs]; simp) c h4)
        · exact List.mem_cons_of_mem a (ih piece (by rw [hs]; simp [h2]) c hc)

theorem splitOnPred_of_none (p : Char → Bool) (piece : List Char)
    (h : ∀ c ∈ piece, p c = false) : splitOnPred p piece = [piece] := by
  induction piece with
  | nil => rfl
  | cons a t ih =>
    show (if p a then [] :: splitOnPred p t
          else match splitOnPred p t with
               | [] => [[a]]
               | piece :: pieces => (a :: piece) :: pieces) = [a :: t]
    rw [if_neg (by simp [h a (by simp)])]
    rw [ih (fun c hc => h c (List.mem_cons_of_mem a hc))]

theorem splitOnPred_sep_append (p : Char → Bool) (hp : p '\n' = true) (x t : List Char)
    (hx : ∀ c ∈ x, p c = false) :
    splitOnPred p (x ++ '\n' :: t) = x :: splitOnPred p t := by
  induction x with
  | nil =>
    show (if p '\n' then [] :: splitOnPred p t
          else match splitOnPred p t with
               | [] => [['\n']]
               | piece :: pieces => ('\n' :: piece) :: pieces) = [] :: splitOnPred p t
    rw [if_pos hp]
  | cons a x2 ih =>
    show (if p a then [] :: splitOnPred p (x2 ++ '\n' :: t)
          else match splitOnPred p (x2 ++ '\n' :: t) with
               | [] => [[a]]
               | piece :: pieces => (a :: piece) :: pieces) = (a :: x2) :: splitOnPred p t
    rw [if_neg (by simp [hx a (by simp)])]
    rw [ih (fun c hc => hx c (List.mem_cons_of_mem a hc))]

theorem splitOnPred_joinWithNL (p : Char → Bool) (hp : p '\n' = true) :
    ∀ ps : List (List Char), ps ≠ [] → (∀ piece ∈ ps, ∀ c ∈ piece, p c = false) →
    splitOnPred p (joinWithNL ps) = ps := by
  intro ps
  induction ps with
  | nil => intro h; exact absurd rfl h
  | cons piece rest ih =>
    intro _ hfree
    cases rest with
    | nil =>
      show splitOnPred p piece = [piece]
      exact splitOnPred_of_none p piece (hfree piece (by simp))
    | cons q qs =>
      show splitOnPred p (piece ++ '\n' :: joinWithNL (q :: qs)) = piece :: q :: qs
      rw [splitOnPred_sep_append p hp piece _ (hfree piece (by simp))]
      rw [ih (by simp) (fun r hr c hc => hfree r (List.mem_cons_of_mem piece hr) c hc)]

theorem joinWithNL_chars : ∀ (ps : List (List Char)) (c : Char), c ∈ joinWithNL ps →
    c = '\n' ∨ ∃ piece ∈ ps, c ∈ piece := by
  intro ps
  induction ps with
  | nil => intro c h; cases h
  | cons piece rest ih =>
    intro c h
    cases rest with
    | nil =>
      right
      exact ⟨piece, by simp, h⟩
    | cons q qs =>
      rw [show joinWithNL (piece :: q :: qs) = piece ++ '\n' :: joinWithNL (q :: qs) from rfl] at h
      rcases List.mem_append.mp h with h1 | h2
      · right; exact ⟨piece, by simp, h1⟩
      · rcases List.mem_cons.mp h2 with h3 | h4
        · left; exact h3
        · rcases ih c h4 with h5 | ⟨r, hr, hcr⟩
          · left; exact h5
          · right; exact ⟨r, List.mem_cons_of_mem piece hr, hcr⟩

theorem allScraperDescTransform_idem (s : String) :
    allScraperDescTransform (allScraperDescTransform s) = allScraperDescTransform s := by
  have h1 : hasDotSpace (stripL (replDotSpace s.data)) = false :=
    hasDotSpace_stripL (hasDotSpace_replDotSpace s.data)
  show pyStrip (String.mk (replDotSpace (stripL (replDotSpace s.data)))) =
    pyStrip (String.mk (replDotSpace s.data))
  rw [replDotSpace_eq_self h1]
  show String.mk (stripL (stripL (replDotSpace s.data))) = String.mk (stripL (replDotSpace s.data))
  rw [stripL_stripL]

theorem normNLS_idem (s : String) : normNLS (normNLS s) = normNLS s := by
  show String.mk (normNL (normNL s.data)) = String.mk (normNL s.data)
  rw [normNL_normNL]

theorem importNormalizeDesc_idem (s : String) :
    importNormalizeDesc (importNormalizeDesc s) = importNormalizeDesc s := by
  have hfree : ∀ piece ∈ (splitOnPred (fun c => c = '\n') (normNL s.data)).map stripL,
      ∀ c ∈ piece, (decide (c = '\n')) = false := by
    intro piece hp c hc
    obtain ⟨q, hq, hpq⟩ := List.mem_map.mp hp
    rw [← hpq] at hc
    exact splitOnPred_pieces _ _ q hq c (mem_of_mem_stripL hc)
  have hne : (splitOnPred (fun c => c = '\n') (normNL s.data)).map stripL ≠ [] := by
    intro h
    exact splitOnPred_ne_nil _ _ (List.map_eq_nil_iff.mp h)
  have hF1 : '\r' ∉ joinWithNL ((splitOnPred (fun c => c = '\n') (normNL s.data)).map stripL) := by
    intro hmem
    rcases joinWithNL_chars _ '\r' hmem with h | ⟨piece, hp, hcp⟩
    · exact absurd h (by decide)
    · obtain ⟨q, hq, hpq⟩ := List.mem_map.mp hp
      rw [← hpq] at hcp
      exact not_cr_normNL s.data (splitOnPred_subset _ _ q hq '\r' (mem_of_mem_stripL hcp))
  show String.mk (joinWithNL ((splitOnPred (fun c => c = '\n')
      (normNL (joinWithNL ((splitOnPred (fun c => c = '\n') (normNL s.data)).map stripL)))).map
        stripL)) =
    String.mk (joinWithNL ((splitOnPred (fun c => c = '\n') (normNL s.data)).map stripL))
  rw [normNL_eq_self hF1]
  rw [splitOnPred_joinWithNL _ (by decide) _ hne hfree]
  rw [List.map_map]
  have hcomp : List.map (stripL ∘ stripL) (splitOnPred (fun c => c = '\n') (normNL s.data)) =
      List.map stripL (splitOnPred (fun c => c = '\n') (normNL s.data)) :=
    List.map_congr_left (fun a _ => stripL_stripL a)
  rw [hcomp]

/-! ## Lemmas about the category dedup loop -/

theorem dedupGo_cons (seen : List String) (c : String) (rest : List String) :
    dedupGo seen (c :: rest) =
      if cleanCat c ≠ "" ∧ pyLower (cleanCat c) ∉ seen.map pyLower then
        dedupGo (seen ++ [cleanCat c]) rest
      else dedupGo seen rest := rfl

theorem dedupGo_decomp (l : List String) : ∀ seen : List String,
    ∃ e, dedupGo seen l = seen ++ e ∧ e.Sublist (l.map cleanCat) := by
  induction l with
  | nil => intro seen; exact ⟨[], by simp [dedupGo], by simp⟩
  | cons c rest ih =>
    intro seen
    by_cases h : cleanCat c ≠ "" ∧ pyLower (cleanCat c) ∉ seen.map pyLower
    · obtain ⟨e, he, hs⟩ := ih (seen ++ [cleanCat c])
      refine ⟨cleanCat c :: e, ?_, ?_⟩
      · rw [dedupGo_cons, if_pos h, he, List.append_assoc]
        rfl
      · rw [List.map_cons]
        exact List.Sublist.cons₂ _ hs
    · obtain ⟨e, he, hs⟩ := ih seen
      refine ⟨e, ?_, ?_⟩
      · rw [dedupGo_cons, if_neg h]
        exact he
      · rw [List.map_cons]
        exact hs.cons _

theorem dedupGo_mono_mem {x : String} {seen : List String} (l : List String) (h : x ∈ seen) :
    x ∈ dedupGo seen l := by
  obtain ⟨e, he, _⟩ := dedupGo_decomp l seen
  rw [he]
  exact List.mem_append_left e h

theorem dedupGo_pairwise (l : List String) : ∀ seen : List String,
    List.Pairwise (fun a b => pyLower a ≠ pyLower b) seen →
    List.Pairwise (fun a b => pyLower a ≠ pyLower b) (dedupGo seen l) := by
  induction l with
  | nil => intro seen h; simpa [dedupGo] using h
  | cons c rest ih =>
    intro seen h
    by_cases hc : cleanCat c ≠ "" ∧ pyLower (cleanCat c) ∉ seen.map pyLower
    · rw [dedupGo_cons, if_pos hc]
      apply ih
      rw [List.pairwise_append]
      refine ⟨h, by simp, ?_⟩
      intro a ha b hb
      rw [List.mem_singleton] at hb
      subst hb
      intro heq
      exact hc.2 (heq ▸ List.mem_map_of_mem pyLower ha)
    · rw [dedupGo_cons, if_neg hc]
      exact ih seen h

theorem dedupGo_complete (l : List String) : ∀ (seen : List String) (c : String), c ∈ l →
    cleanCat c ≠ "" → pyLower (cleanCat c) ∈ (dedupGo seen l).map pyLower := by
  induction l with
  | nil => intro seen c hc; cases hc
  | cons d rest ih =>
    intro seen c hc hne
    rcases List.mem_cons.mp hc with rfl | hmem
    · by_cases h : cleanCat c ≠ "" ∧ pyLower (cleanCat c) ∉ seen.map pyLower
      · rw [dedupGo_cons, if_pos h]
        exact List.mem_map_of_mem pyLower (dedupGo_mono_mem rest (by simp))
      · rw [dedupGo_cons, if_neg h]
        push_neg at h
        obtain ⟨y, hy, hyl⟩ := List.mem_map.mp (h hne)
        rw [← hyl]
        exact List.mem_map_of_mem pyLower (dedupGo_mono_mem rest hy)
    · by_cases h : cleanCat d ≠ "" ∧ pyLower (cleanCat d) ∉ seen.map pyLower
      · rw [dedupGo_cons, if_pos h]
        exact ih _ c hmem hne
      · rw [dedupGo_cons, if_neg h]
        exact ih _ c hmem hne

/-! ## Field-preservation lemmas

The JSON-LD steps never write _job_featured_image; the HTML phases
each write a disjoint set of fields.
-/

theorem stepSalaryValue_fi (vfs : List (String × Json)) (jd : JobData) :
    (stepSalaryValue vfs jd).featuredImage = jd.featuredImage := by
  unfold stepSalaryValue
  split <;> rfl

theorem stepTitle_fi {fs : List (String × Json)} {jd jd2 : JobData}
    (h : stepTitle fs jd = some jd2) : jd2.featuredImage = jd.featuredImage := by
  unfold stepTitle at h
  repeat' split at h
  all_goals first | exact Option.noConfusion h | (injection h with h2; subst h2; rfl)

theorem stepDescription_fi {fs : List (String × Json)} {jd jd2 : JobData}
    (h : stepDescription fs jd = some jd2) : jd2.featuredImage = jd.featuredImage := by
  unfold stepDescription at h
  repeat' split at h
  all_goals first | exact Option.noConfusion h | (injection h with h2; subst h2; rfl)

theorem stepDates_fi {fs : List (String × Json)} {jd jd2 : JobData}
    (h : stepDates fs jd = some jd2) : jd2.featuredImage = jd.featuredImage := by
  unfold stepDates at h
  injection h with h2
  subst h2
  rfl

theorem stepEmployment_fi {fs : List (String × Json)} {jd jd2 : JobData}
    (h : stepEmployment fs jd = some jd2) : jd2.featuredImage = jd.featuredImage := by
  unfold stepEmployment at h
  repeat' split at h
  all_goals first | exact Option.noConfusion h | (injection h with h2; subst h2; rfl)

theorem stepEducation_fi {fs : List (String × Json)} {jd jd2 : JobData}
    (h : stepEducation fs jd = some jd2) : jd2.featuredImage = jd.featuredImage := by
  unfold stepEducation at h
  repeat' split at h
  all_goals first | exact Option.noConfusion h | (injection h with h2; subst h2; rfl)

theorem stepLocation_fi {fs : List (String × Json)} {jd jd2 : JobData}
    (h : stepLocation fs jd = some jd2) : jd2.featuredImage = jd.featuredImage := by
  unfold stepLocation at h
  repeat' split at h
  all_goals first | exact Option.noConfusion h | (injection h with h2; subst h2; rfl)

theorem stepSalary_fi (fs : List (String × Json)) (jd : JobData) :
    (stepSalary fs jd).featuredImage = jd.featuredImage := by
  unfold stepSalary
  repeat' split
  all_goals first | rfl | exact stepSalaryValue_fi _ _

theorem processItem_fi (fs : List (String × Json)) (jd : JobData) :
    (processItem fs jd).featuredImage = jd.featuredImage := by
  unfold processItem
  split
  · rfl
  next jd1 h1 =>
    have e1 := stepTitle_fi h1
    split
    · exact e1
    next jd2 h2 =>
      have e2 := (stepDescription_fi h2).trans e1
      split
      · exact e2
      next jd3 h3 =>
        have e3 := (stepDates_fi h3).trans e2
        split
        · exact e3
        next jd4 h4 =>
          have e4 := (stepEmployment_fi h4).trans e3
          split
          · exact e4
          next jd5 h5 =>
            have e5 := (stepEducation_fi h5).trans e4
            split
            · exact e5
            next jd6 h6 =>
              have e6 := (stepLocation_fi h6).trans e5
              exact (stepSalary_fi fs jd6).trans e6

theorem processScript_fi (script : Option Json) (jd : JobData) :
    (processScript script jd).featuredImage = jd.featuredImage := by
  unfold processScript
  split
  · rfl
  · split
    · rfl
    · rfl
    · exact processItem_fi _ _

theorem interpretLd_fi (scripts : List (Option Json)) (jd : JobData) :
    (interpretLd scripts jd).featuredImage = jd.featuredImage := by
  induction scripts generalizing jd with
  | nil => rfl
  | cons s rest ih =>
    show (interpretLd rest (processScript s jd)).featuredImage = jd.featuredImage
    rw [ih, processScript_fi]

theorem fallbackTitle_pres (doc : Doc) (jd : JobData) :
    (fallbackTitle doc jd).jobType = jd.jobType ∧
    (fallbackTitle doc jd).salary = jd.salary ∧
    (fallbackTitle doc jd).salaryType = jd.salaryType ∧
    (fallbackTitle doc jd).experience = jd.experience ∧
    (fallbackTitle doc jd).featuredImage = jd.featuredImage := by
  unfold fallbackTitle
  repeat' split
  all_goals exact ⟨rfl, rfl, rfl, rfl, rfl⟩

theorem badgesStep_pres (doc : Doc) (jd : JobData) :
    (badgesStep doc jd).title = jd.title ∧
    (badgesStep doc jd).jobType = jd.jobType ∧
    (badgesStep doc jd).salary = jd.salary ∧
    (badgesStep doc jd).salaryType = jd.salaryType ∧
    (badgesStep doc jd).featuredImage = jd.featuredImage := by
  by_cases h1 : doc.hasPremiumBadge <;> by_cases h2 : doc.hasFilledText <;>
    by_cases h3 : doc.hasUrgentText <;> simp [badgesStep, h1, h2, h3]

theorem fallbackDescription_pres (doc : Doc) (jd : JobData) :
    (fallbackDescription doc jd).title = jd.title ∧
    (fallbackDescription doc jd).jobType = jd.jobType ∧
    (fallbackDescription doc jd).salary = jd.salary ∧
    (fallbackDescription doc jd).salaryType = jd.salaryType ∧
    (fallbackDescription doc jd).featuredImage = jd.featuredImage := by
  unfold fallbackDescription
  repeat' split
  all_goals exact ⟨rfl, rfl, rfl, rfl, rfl⟩

theorem expStep_pres (doc : Doc) (jd : JobData) :
    (expStep doc jd).title = jd.title ∧
    (expStep doc jd).jobType = jd.jobType ∧
    (expStep doc jd).salary = jd.salary ∧
    (expStep doc jd).salaryType = jd.salaryType ∧
    (expStep doc jd).featuredImage = jd.featuredImage :=
  ⟨rfl, rfl, rfl, rfl, rfl⟩

theorem expStep_experience (doc : Doc) (jd : JobData) :
    (expStep doc jd).experience = expResult doc.expLookup := rfl

theorem categoryStep_pres (doc : Doc) (jd : JobData) :
    (categoryStep doc jd).title = jd.title ∧
    (categoryStep doc jd).jobType = jd.jobType ∧
    (categoryStep doc jd).salary = jd.salary ∧
    (categoryStep doc jd).salaryType = jd.salaryType ∧
    (categoryStep doc jd).experience = jd.experience ∧
    (categoryStep doc jd).featuredImage = jd.featuredImage := by
  unfold categoryStep
  repeat' split
  all_goals exact ⟨rfl, rfl, rfl, rfl, rfl, rfl⟩

theorem imageStep_pres (doc : Doc) (jd : JobData) :
    (imageStep doc jd).title = jd.title ∧
    (imageStep doc jd).jobType = jd.jobType ∧
    (imageStep doc jd).salary = jd.salary ∧
    (imageStep doc jd).salaryType = jd.salaryType ∧
    (imageStep doc jd).experience = jd.experience := by
  unfold imageStep
  repeat' split
  all_goals exact ⟨rfl, rfl, rfl, rfl, rfl⟩

theorem bool_eq_false {b : Bool} (h : ¬b = true) : b = false := by
  cases b
  · rfl
  · exact absurd rfl h

theorem bool_ne_true {b : Bool} (h : b = false) : ¬b = true := by
  rw [h]
  exact Bool.false_ne_true

theorem imageStep_none {doc : Doc} (jd : JobData) (h : doc.imgSrc = none) :
    imageStep doc jd = jd := by
  unfold imageStep
  rw [h]

theorem imageStep_some {doc : Doc} (jd : JobData) (src : String) (h : doc.imgSrc = some src) :
    imageStep doc jd =
      (if src = "" then jd
       else if pyStartsWith src "http" then { jd with featuredImage := Json.jstr src }
       else if pyStartsWith src "//" then { jd with featuredImage := Json.jstr ("https:" ++ src) }
       else if pyStartsWith src "/" then { jd with featuredImage := Json.jstr (baseUrl ++ src) }
       else jd) := by
  unfold imageStep
  rw [h]

theorem postPhases_pres (doc : Doc) (url : String) (jd : JobData) :
    (finalizeStep url (imageStep doc (categoryStep doc (expStep doc (fallbackDescription doc
      (badgesStep doc jd)))))).title = jd.title ∧
    (finalizeStep url (imageStep doc (categoryStep doc (expStep doc (fallbackDescription doc
      (badgesStep doc jd)))))).jobType = jd.jobType ∧
    (finalizeStep url (imageStep doc (categoryStep doc (expStep doc (fallbackDescription doc
      (badgesStep doc jd)))))).salary = jd.salary ∧
    (finalizeStep url (imageStep doc (categoryStep doc (expStep doc (fallbackDescription doc
      (badgesStep doc jd)))))).salaryType = jd.salaryType ∧
    (finalizeStep url (imageStep doc (categoryStep doc (expStep doc (fallbackDescription doc
      (badgesStep doc jd)))))).maxSalary = jd.salary := by
  obtain ⟨b1, b2, b3, b4, b5⟩ := badgesStep_pres doc jd
  obtain ⟨f1, f2, f3, f4, f5⟩ := fallbackDescription_pres doc (badgesStep doc jd)
  obtain ⟨e1, e2, e3, e4, e5⟩ :=
    expStep_pres doc (fallbackDescription doc (badgesStep doc jd))
  obtain ⟨g1, g2, g3, g4, g5, g6⟩ :=
    categoryStep_pres doc (expStep doc (fallbackDescription doc (badgesStep doc jd)))
  obtain ⟨i1, i2, i3, i4, i5⟩ :=
    imageStep_pres doc (categoryStep doc (expStep doc (fallbackDescription doc
      (badgesStep doc jd))))
  refine ⟨?_, ?_, ?_, ?_, ?_⟩
  · show (imageStep doc _).title = _
    rw [i1, g1, e1, f1, b1]
  · show (imageStep doc _).jobType = _
    rw [i2, g2, e2, f2, b2]
  · show (imageStep doc _).salary = _
    rw [i3, g3, e3, f3, b3]
  · show (imageStep doc _).salaryType = _
    rw [i4, g4, e4, f4, b4]
  · show (imageStep doc _).salary = _
    rw [i3, g3, e3, f3, b3]

theorem gaz_lower_fixed : ∀ g ∈ scraper3LocationKeywords, pyLower g = g := by decide

/-! ## Claim theorems -/

/-- Claim C1 (amended to the all_scraper/scraper3 variants): for every
detail page whose only structured-data block is the Vendedor
JobPosting with employmentType FULL_TIME and monthly base salary
450000, scrape_job_detail yields title Vendedor, job_type Tiempo
Completo, salary the string 450000, salary_type mensual, and
max_salary the string 450000.  The import.py variant does not satisfy
the claim (see the counterexample). -/
theorem c1_scenario_allScraper (doc : Doc) (url : String)
    (h : doc.ldScripts = [some c1Block]) :
    (scrapeJobDetail doc url).title = Json.jstr "Vendedor" ∧
    (scrapeJobDetail doc url).jobType = Json.jstr "Tiempo Completo" ∧
    (scrapeJobDetail doc url).salary = Json.jstr "450000" ∧
    (scrapeJobDetail doc url).salaryType = Json.jstr "mensual" ∧
    (scrapeJobDetail doc url).maxSalary = Json.jstr "450000" := by
  have hpipe : scrapeJobDetail doc url =
      finalizeStep url (imageStep doc (categoryStep doc (expStep doc (fallbackDescription doc
        (badgesStep doc (interpretLd [some c1Block] initJobData)))))) := by
    show finalizeStep url (imageStep doc (categoryStep doc (expStep doc (fallbackDescription doc
      (badgesStep doc (fallbackTitle doc (interpretLd doc.ldScripts initJobData))))))) = _
    rw [h]
    rfl
  rw [hpipe]
  obtain ⟨p1, p2, p3, p4, p5⟩ :=
    postPhases_pres doc url (interpretLd [some c1Block] initJobData)
  exact ⟨p1.trans rfl, p2.trans rfl, p3.trans rfl, p4.trans rfl, p5.trans rfl⟩

/-- Witness for C1: the concrete document whose only block is the
scenario block. -/
theorem c1_scenario_witness :
    c1Doc.ldScripts = [some c1Block] ∧
    (scrapeJobDetail c1Doc "https://x.example/j/1").title = Json.jstr "Vendedor" ∧
    (scrapeJobDetail c1Doc "https://x.example/j/1").maxSalary = Json.jstr "450000" :=
  ⟨rfl, (c1_scenario_allScraper c1Doc "https://x.example/j/1" rfl).1,
    (c1_scenario_allScraper c1Doc "https://x.example/j/1" rfl).2.2.2.2⟩

/-- Counterexample for C1 as stated: the import.py structured-data
interpreter ignores a top-level JobPosting block (it only examines
blocks wrapped in a graph container), so on this page it stores no
title, no salary, no job type, and no salary type at all. -/
theorem c1_counterexample_import_ignores_block :
    importExtractLd (some c1Block) initJobData = some initJobData ∧
    initJobData.title = Json.jnull ∧ initJobData.salary = Json.jnull ∧
    initJobData.jobType = Json.jnull ∧ initJobData.salaryType = Json.jnull :=
  ⟨rfl, rfl, rfl, rfl, rfl⟩

theorem stepSalaryValue_pres (vfs : List (String × Json)) (jd : JobData) :
    (stepSalaryValue vfs jd).title = jd.title ∧
    (stepSalaryValue vfs jd).expiryDate = jd.expiryDate ∧
    (stepSalaryValue vfs jd).deadlineDate = jd.deadlineDate ∧
    (stepSalaryValue vfs jd).jobType = jd.jobType := by
  unfold stepSalaryValue
  split <;> exact ⟨rfl, rfl, rfl, rfl⟩

theorem processScript_posting_fields (t : String) (vt : Json) (e : String) (salv : Json)
    (unit : String) (jd : JobData) :
    (processScript (some (mkPostingBlock t vt e salv unit)) jd).title =
      Json.jstr (pyStrip t) ∧
    (processScript (some (mkPostingBlock t vt e salv unit)) jd).expiryDate = vt ∧
    (processScript (some (mkPostingBlock t vt e salv unit)) jd).deadlineDate = vt ∧
    (processScript (some (mkPostingBlock t vt e salv unit)) jd).jobType =
      Json.jstr (employmentTypeLabel e) ∧
    (processScript (some (mkPostingBlock t vt e salv unit)) jd).salaryType =
      Json.jstr (salaryUnitLabel unit) := by
  obtain ⟨p1, p2, p3, p4⟩ :=
    stepSalaryValue_pres [("value", salv), ("unitText", Json.jstr unit)]
      { jd with
          title := Json.jstr (pyStrip t)
          expiryDate := vt
          deadlineDate := vt
          jobType := Json.jstr (employmentTypeLabel e)
          qualification := Json.jstr (pyStrip "") }
  exact ⟨p1.trans rfl, p2.trans rfl, p3.trans rfl, p4.trans rfl, rfl⟩

/-- Claim C2 (amended): when more than one script block declares a
JobPosting, the interpreter processes every one of them in document
order with no break, so the LAST matching block overwrites the fields
written unconditionally by earlier ones: appending a well-formed
matching block (string title, any validThrough value, string
employment type, base-salary value object with any value and a string
unit code) to any script list, over any record state, makes its
stripped title the stored title, its validThrough value both stored
dates, its mapped employment type the stored job_type, and its mapped
unit code the stored salary_type. -/
theorem c2_last_block_wins (ss : List (Option Json)) (t : String) (vt : Json) (e : String)
    (salv : Json) (unit : String) (jd : JobData) :
    (interpretLd (ss ++ [some (mkPostingBlock t vt e salv unit)]) jd).title =
      Json.jstr (pyStrip t) ∧
    (interpretLd (ss ++ [some (mkPostingBlock t vt e salv unit)]) jd).expiryDate = vt ∧
    (interpretLd (ss ++ [some (mkPostingBlock t vt e salv unit)]) jd).deadlineDate = vt ∧
    (interpretLd (ss ++ [some (mkPostingBlock t vt e salv unit)]) jd).jobType =
      Json.jstr (employmentTypeLabel e) ∧
    (interpretLd (ss ++ [some (mkPostingBlock t vt e salv unit)]) jd).salaryType =
      Json.jstr (salaryUnitLabel unit) := by
  unfold interpretLd
  rw [List.foldl_append]
  exact processScript_posting_fields t vt e salv unit
    (List.foldl (fun acc s => processScript s acc) jd ss)

/-- Counterexample for C2 as stated: with two JobPosting blocks titled
A then B, the record title is B, not the first block's A. -/
theorem c2_counterexample_second_block_wins :
    (scrapeJobDetail twoBlockDoc "u").title = Json.jstr "B" ∧
    (scrapeJobDetail twoBlockDoc "u").title ≠ Json.jstr "A" := by
  refine ⟨rfl, ?_⟩
  intro h
  have h2 : Json.jstr "B" = Json.jstr "A" := h
  injection h2 with h3
  exact absurd h3 (by decide)

/-- Claim C3 (amended): the stored description is the structured-data
description with each period-space occurrence rewritten to a period
followed by CRLF, then stripped; in particular, when the description
contains no period-space sequence, only leading and trailing
whitespace is removed. -/
theorem c3_desc_only_trimmed_without_sentence_space (s : String)
    (h : hasDotSpace s.data = false) :
    allScraperDescTransform s = pyStrip s := by
  show pyStrip (String.mk (replDotSpace s.data)) = pyStrip s
  rw [replDotSpace_eq_self h]

/-- Witness for C3 (amended), at a description without a
period-space sequence. -/
theorem c3_desc_witness :
    hasDotSpace ("Hola Mundo" : String).data = false ∧
    allScraperDescTransform "Hola Mundo" = pyStrip "Hola Mundo" :=
  ⟨by decide, c3_desc_only_trimmed_without_sentence_space "Hola Mundo" (by decide)⟩

/-- Counterexample for C3 as stated: the description Hola. Mundo is
stored with its interior sentence space rewritten to CRLF, which is
not the merely-trimmed, newline-normalized reading of the spec. -/
theorem c3_counterexample_sentence_rewrite :
    (interpretLd [some (mkDescBlock "Hola. Mundo")] initJobData).description =
      Json.jstr "Hola.\r\nMundo" ∧
    specDescriptionNormalize "Hola. Mundo" = "Hola. Mundo" ∧
    ("Hola.\r\nMundo" : String) ≠ "Hola. Mundo" :=
  ⟨rfl, by decide, by decide⟩

/-- Claim C4: the employment-type mapping is a pure function taking
each of the four fixed codes to its fixed display label (in both the
all_scraper/scraper3 and the import variants), storing the label in
_job_type, and passing any other code through unchanged. -/
theorem c4_employment_type_mapping :
    ((employmentTypeLabel "FULL_TIME" = "Tiempo Completo" ∧
      employmentTypeLabel "PART_TIME" = "Tiempo parcial" ∧
      employmentTypeLabel "TEMPORARY" = "Temporario" ∧
      employmentTypeLabel "CONTRACT" = "Contrato") ∧
     (importEmploymentTypeLabel "FULL_TIME" = "Full Time" ∧
      importEmploymentTypeLabel "PART_TIME" = "Part Time" ∧
      importEmploymentTypeLabel "TEMPORARY" = "Temporary" ∧
      importEmploymentTypeLabel "CONTRACT" = "Contract")) ∧
    (∀ (s : String) (jd : JobData),
      (processScript (some (mkEmploymentBlock s)) jd).jobType =
        Json.jstr (employmentTypeLabel s)) ∧
    (∀ s : String, s ≠ "FULL_TIME" → s ≠ "PART_TIME" → s ≠ "TEMPORARY" → s ≠ "CONTRACT" →
      employmentTypeLabel s = s ∧ importEmploymentTypeLabel s = s) := by
  refine ⟨⟨⟨rfl, rfl, rfl, rfl⟩, ⟨rfl, rfl, rfl, rfl⟩⟩, ?_, ?_⟩
  · intro s jd
    rfl
  · intro s h1 h2 h3 h4
    constructor
    · unfold employmentTypeLabel
      rw [if_neg h1, if_neg h2, if_neg h3, if_neg h4]
    · unfold importEmploymentTypeLabel
      rw [if_neg h1, if_neg h2, if_neg h3, if_neg h4]

/-- Witness for C4, at the unrecognized code FREELANCE. -/
theorem c4_employment_type_witness :
    employmentTypeLabel "FREELANCE" = "FREELANCE" ∧
    importEmploymentTypeLabel "FREELANCE" = "FREELANCE" ∧
    (processScript (some (mkEmploymentBlock "FREELANCE")) initJobData).jobType =
      Json.jstr (employmentTypeLabel "FREELANCE") :=
  ⟨(c4_employment_type_mapping.2.2 "FREELANCE" (by decide) (by decide) (by decide)
      (by decide)).1,
   (c4_employment_type_mapping.2.2 "FREELANCE" (by decide) (by decide) (by decide)
      (by decide)).2,
   c4_employment_type_mapping.2.1 "FREELANCE" initJobData⟩

/-- Claim C5: the category cleanup loop deduplicates case-insensitively
while preserving first-seen order: the output has pairwise distinct
lowercase forms, is an order-preserving selection from the cleaned
candidates, every nonempty cleaned candidate is represented, and the
worked example holds exactly. -/
theorem c5_category_dedup :
    dedupCats ["Ventas", "ventas", "Cocina"] = ["Ventas", "Cocina"] ∧
    (∀ cats : List String,
      List.Pairwise (fun a b => pyLower a ≠ pyLower b) (dedupCats cats) ∧
      (dedupCats cats).Sublist (cats.map cleanCat)) ∧
    (∀ (cats : List String) (c : String), c ∈ cats → cleanCat c ≠ "" →
      pyLower (cleanCat c) ∈ (dedupCats cats).map pyLower) := by
  refine ⟨by decide, ?_, ?_⟩
  · intro cats
    constructor
    · exact dedupGo_pairwise cats [] List.Pairwise.nil
    · obtain ⟨e, he, hs⟩ := dedupGo_decomp cats []
      unfold dedupCats
      rw [he]
      simpa using hs
  · intro cats c hc hne
    exact dedupGo_complete cats [] c hc hne

/-- Witness for C5, instantiating the completeness conjunct. -/
theorem c5_category_dedup_witness :
    ("Cocina" ∈ (["Ventas", "ventas", "Cocina"] : List String)) ∧ cleanCat "Cocina" ≠ "" ∧
    pyLower (cleanCat "Cocina") ∈ (dedupCats ["Ventas", "ventas", "Cocina"]).map pyLower :=
  ⟨by decide, by decide,
    c5_category_dedup.2.2 ["Ventas", "ventas", "Cocina"] "Cocina" (by decide) (by decide)⟩

/-- Claim C6 (amended to the scraper3 variant, which is the only
variant with a gazetteer filter): the final-category selection never
returns a candidate whose lowercase form is a gazetteer entry; the
all_scraper variant has no such filter and can store a location name
(see the counterexample). -/
theorem c6_scraper3_never_selects_location :
    ∀ (cats : List String) (c : String), selectFinalCategory cats = some c →
      ∀ g ∈ scraper3LocationKeywords, pyLower c ≠ pyLower g := by
  intro cats
  induction cats with
  | nil =>
    intro c h
    cases h
  | cons cat rest ih =>
    intro c h
    unfold selectFinalCategory at h
    split at h
    · exact ih c h
    · split at h
      · exact ih c h
      · split at h
        · exact ih c h
        · next hmem hsub hlen =>
          injection h with h2
          subst h2
          intro g hg heq
          rw [gaz_lower_fixed g hg] at heq
          exact hmem (by rw [heq]; exact hg)

/-- Witness for C6 (amended): San José is skipped and Ventas, which
matches no gazetteer entry, is selected. -/
theorem c6_scraper3_witness :
    selectFinalCategory ["San José", "Ventas"] = some "Ventas" ∧
    "san josé" ∈ scraper3LocationKeywords ∧
    pyLower "Ventas" ≠ pyLower "san josé" :=
  ⟨by decide, by decide,
    c6_scraper3_never_selects_location ["San José", "Ventas"] "Ventas" (by decide) "san josé"
      (by decide)⟩

/-- Counterexample for C6 as stated: in the all_scraper variant a
breadcrumb candidate San José, a gazetteer entry, becomes the final
_job_category of the record. -/
theorem c6_counterexample_allScraper_location_category :
    (scrapeJobDetail sanJoseDoc "u").category = Json.jstr "San José" ∧
    pyLower "San José" ∈ scraper3LocationKeywords :=
  ⟨rfl, by decide⟩

/-- Claim C7: description normalization is idempotent, for all three
normalization steps of the pipeline: the JSON-LD description transform
of all_scraper/scraper3, the line-wise normalization of import.py, and
the newline canonicalization of the visible-description fallback. -/
theorem c7_description_normalization_idempotent (s : String) :
    allScraperDescTransform (allScraperDescTransform s) = allScraperDescTransform s ∧
    importNormalizeDesc (importNormalizeDesc s) = importNormalizeDesc s ∧
    normNLS (normNLS s) = normNLS s :=
  ⟨allScraperDescTransform_idem s, importNormalizeDesc_idem s, normNLS_idem s⟩

/-- Claim C8: every record produced by scrape_job_detail has
_job_max_salary equal to _job_salary; all_scraper.py line 270 copies
the salary unconditionally, which also covers the case where both are
null. -/
theorem c8_max_salary_mirrors_salary (doc : Doc) (url : String) :
    (scrapeJobDetail doc url).maxSalary = (scrapeJobDetail doc url).salary := rfl

/-- Claim C9: the experience extractor stores an explicit null
whenever the label span, its dt parent, the following dd sibling, or
the stripped cell text is missing or empty, and otherwise stores the
stripped cell text; it is a total function, so no error is raised. -/
theorem c9_experience_extractor (doc : Doc) (url : String) :
    (doc.expLookup = ExpLookup.noLabel → (scrapeJobDetail doc url).experience = Json.jnull) ∧
    (doc.expLookup = ExpLookup.noDtParent → (scrapeJobDetail doc url).experience = Json.jnull) ∧
    (doc.expLookup = ExpLookup.noDdSibling → (scrapeJobDetail doc url).experience = Json.jnull) ∧
    (∀ t : String, doc.expLookup = ExpLookup.found t →
      (scrapeJobDetail doc url).experience =
        (if pyStrip t = "" then Json.jnull else Json.jstr (pyStrip t))) := by
  have key : (scrapeJobDetail doc url).experience = expResult doc.expLookup := by
    have h1 : (scrapeJobDetail doc url).experience =
        (imageStep doc (categoryStep doc (expStep doc (fallbackDescription doc
          (badgesStep doc (fallbackTitle doc
            (interpretLd doc.ldScripts initJobData))))))).experience := rfl
    rw [h1, (imageStep_pres _ _).2.2.2.2, (categoryStep_pres _ _).2.2.2.2.1,
      expStep_experience]
  refine ⟨?_, ?_, ?_, ?_⟩
  · intro h
    rw [key, h]
    rfl
  · intro h
    rw [key, h]
    rfl
  · intro h
    rw [key, h]
    rfl
  · intro t h
    rw [key, h]
    rfl

/-- Witness for C9, at a document whose dd cell holds padded text. -/
theorem c9_experience_witness :
    expFoundDoc.expLookup = ExpLookup.found "  2 anos  " ∧
    (scrapeJobDetail expFoundDoc "u").experience =
      (if pyStrip "  2 anos  " = "" then Json.jnull else Json.jstr (pyStrip "  2 anos  ")) :=
  ⟨rfl, (c9_experience_extractor expFoundDoc "u").2.2.2 "  2 anos  " rfl⟩

/-- Claim C10: _job_featured_image is always null or an absolute URL
beginning with http: an already-absolute source is kept, a
protocol-relative source gets the https scheme, a root-relative source
gets the base origin, and a relative source without a leading slash is
not resolved and leaves the field null. -/
theorem c10_featured_image_absolute (doc : Doc) (url : String) :
    ((scrapeJobDetail doc url).featuredImage = Json.jnull ∨
      ∃ s, (scrapeJobDetail doc url).featuredImage = Json.jstr s ∧
        pyStartsWith s "http" = true) ∧
    (∀ src, doc.imgSrc = some src → src ≠ "" →
      (pyStartsWith src "http" = true →
        (scrapeJobDetail doc url).featuredImage = Json.jstr src) ∧
      (pyStartsWith src "http" = false → pyStartsWith src "//" = true →
        (scrapeJobDetail doc url).featuredImage = Json.jstr ("https:" ++ src)) ∧
      (pyStartsWith src "http" = false → pyStartsWith src "//" = false →
        pyStartsWith src "/" = true →
        (scrapeJobDetail doc url).featuredImage = Json.jstr (baseUrl ++ src)) ∧
      (pyStartsWith src "http" = false → pyStartsWith src "//" = false →
        pyStartsWith src "/" = false →
        (scrapeJobDetail doc url).featuredImage = Json.jnull)) := by
  have hz : (categoryStep doc (expStep doc (fallbackDescription doc (badgesStep doc
      (fallbackTitle doc (interpretLd doc.ldScripts initJobData)))))).featuredImage =
      Json.jnull := by
    rw [(categoryStep_pres _ _).2.2.2.2.2, (expStep_pres _ _).2.2.2.2,
      (fallbackDescription_pres _ _).2.2.2.2, (badgesStep_pres _ _).2.2.2.2,
      (fallbackTitle_pres _ _).2.2.2.2, interpretLd_fi]
    rfl
  have hkey : (scrapeJobDetail doc url).featuredImage =
      (imageStep doc (categoryStep doc (expStep doc (fallbackDescription doc (badgesStep doc
        (fallbackTitle doc (interpretLd doc.ldScripts initJobData))))))).featuredImage := rfl
  constructor
  · cases himg : doc.imgSrc with
    | none =>
      left
      rw [hkey, imageStep_none _ himg]
      exact hz
    | some src =>
      by_cases hemp : src = ""
      · left
        rw [hkey, imageStep_some _ src himg, if_pos hemp]
        exact hz
      · by_cases hhttp : pyStartsWith src "http" = true
        · right
          exact ⟨src, by rw [hkey, imageStep_some _ src himg, if_neg hemp, if_pos hhttp], hhttp⟩
        · by_cases hpp : pyStartsWith src "//" = true
          · right
            refine ⟨"https:" ++ src, ?_, ?_⟩
            · rw [hkey, imageStep_some _ src himg, if_neg hemp, if_neg hhttp, if_pos hpp]
            · rfl
          · by_cases hsl : pyStartsWith src "/" = true
            · right
              refine ⟨baseUrl ++ src, ?_, ?_⟩
              · rw [hkey, imageStep_some _ src himg, if_neg hemp, if_neg hhttp, if_neg hpp,
                  if_pos hsl]
              · rfl
            · left
              rw [hkey, imageStep_some _ src himg, if_neg hemp, if_neg hhttp, if_neg hpp,
                if_neg hsl]
              exact hz
  · intro src himg hemp
    refine ⟨?_, ?_, ?_, ?_⟩
    · intro h1
      rw [hkey, imageStep_some _ src himg, if_neg hemp, if_pos h1]
    · intro h1 h2
      rw [hkey, imageStep_some _ src himg, if_neg hemp, if_neg (bool_ne_true h1), if_pos h2]
    · intro h1 h2 h3
      rw [hkey, imageStep_some _ src himg, if_neg hemp, if_neg (bool_ne_true h1),
        if_neg (bool_ne_true h2), if_pos h3]
    · intro h1 h2 h3
      rw [hkey, imageStep_some _ src himg, if_neg hemp, if_neg (bool_ne_true h1),
        if_neg (bool_ne_true h2), if_neg (bool_ne_true h3)]
      exact hz

/-- Witness for C10: a relative image source without a leading slash
leaves the field null. -/
theorem c10_featured_image_witness :
    relImageDoc.imgSrc = some "images/pic.jpg" ∧
    (scrapeJobDetail relImageDoc "u").featuredImage = Json.jnull :=
  ⟨rfl,
    ((c10_featured_image_absolute relImageDoc "u").2 "images/pic.jpg" rfl
      (by decide)).2.2.2 (by decide) (by decide) (by decide)⟩
